import Mathlib

/-!
# Verification of the `restuaku/umum` repository against its specification

Shallow embedding of the Python sources (`sheerid_verifier.py`,
`name_generator.py`, `img_generator.py`, `config.py`, `bot.py`) and proofs
of the spec claims C1-C10.

Randomness in the source (`random.randint`, `random.choice`) is modelled by
explicit seed parameters: `random.randint(a, b)` becomes `pyRandint a b r`
(always inside `[a, b]` for any seed `r`), and `random.choice(xs)` becomes
indexing by `r % xs.length`.  HTTP traffic is modelled by environments that
supply the response of each remote call.
-/

namespace Umum

/-! ## Python primitives -/

/-- Models `random.randint(lo, hi)` (inclusive on both ends), driven by a seed. -/
def pyRandint (lo hi r : Nat) : Nat := lo + r % (hi - lo + 1)

theorem pyRandint_le {lo hi r : Nat} (h : lo ≤ hi) : pyRandint lo hi r ≤ hi := by
  have hlt : r % (hi - lo + 1) < hi - lo + 1 := Nat.mod_lt _ (Nat.succ_pos _)
  have : r % (hi - lo + 1) ≤ hi - lo := Nat.lt_succ_iff.mp hlt
  calc lo + r % (hi - lo + 1) ≤ lo + (hi - lo) := Nat.add_le_add_left this lo
    _ = hi := Nat.add_sub_cancel' h

theorem le_pyRandint (lo hi r : Nat) : lo ≤ pyRandint lo hi r :=
  Nat.le_add_right lo _

/-- Little-endian decimal digits of a natural number (`[]` for `0`). -/
def natDecDigits (n : Nat) : List Nat :=
  if n = 0 then [] else n % 10 :: natDecDigits (n / 10)
decreasing_by exact Nat.div_lt_self (Nat.pos_of_ne_zero (by assumption)) (by decide)

/-- Value of a little-endian decimal digit list. -/
def decValue : List Nat → Nat
  | [] => 0
  | d :: ds => d + 10 * decValue ds

theorem decValue_natDecDigits (n : Nat) : decValue (natDecDigits n) = n := by
  induction n using Nat.strong_induction_on with
  | _ n ih =>
    by_cases h : n = 0
    · subst h; simp [natDecDigits, decValue]
    · rw [natDecDigits, if_neg h]
      have hlt : n / 10 < n := Nat.div_lt_self (Nat.pos_of_ne_zero h) (by decide)
      simp only [decValue, ih (n / 10) hlt]
      omega

theorem natDecDigits_lt (n : Nat) : ∀ d ∈ natDecDigits n, d < 10 := by
  induction n using Nat.strong_induction_on with
  | _ n ih =>
    by_cases h : n = 0
    · subst h; simp [natDecDigits]
    · rw [natDecDigits, if_neg h]
      intro d hd
      rcases List.mem_cons.mp hd with h1 | h2
      · subst h1; exact Nat.mod_lt _ (by decide)
      · exact ih (n / 10) (Nat.div_lt_self (Nat.pos_of_ne_zero h) (by decide)) d h2

theorem natDecDigits_injective : Function.Injective natDecDigits :=
  Function.LeftInverse.injective decValue_natDecDigits

/-- Models Python `str(n)` / decimal `f`-string formatting of a natural. -/
def pyStrOfNat (n : Nat) : String :=
  if n = 0 then "0" else String.mk ((natDecDigits n).map Nat.digitChar).reverse

/-- Models Python `str(i)` for an `int` (a sign, then the decimal digits). -/
def pyStrOfInt (i : Int) : String :=
  if i < 0 then "-" ++ pyStrOfNat i.natAbs else pyStrOfNat i.toNat

/-- Decode a decimal digit character. -/
def charToDigit? (c : Char) : Option Nat :=
  if '0' ≤ c ∧ c ≤ '9' then some (c.toNat - '0'.toNat) else none

theorem charToDigit?_digitChar {d : Nat} (h : d < 10) :
    charToDigit? (Nat.digitChar d) = some d := by
  interval_cases d <;> decide

/-- Decode a list of decimal digit characters; `none` if any is a non-digit. -/
def digitsOfChars? : List Char → Option (List Nat)
  | [] => some []
  | c :: cs =>
    match charToDigit? c, digitsOfChars? cs with
    | some d, some ds => some (d :: ds)
    | _, _ => none

/-- Parse a (big-endian) decimal digit string; `none` on a non-digit or `""`. -/
def decStrToNat? (s : String) : Option Nat :=
  if s.data = [] then none
  else (digitsOfChars? s.data).map fun ds => decValue ds.reverse

theorem digitsOfChars?_digits (l : List Nat) (hl : ∀ d ∈ l, d < 10) :
    digitsOfChars? (l.map Nat.digitChar) = some l := by
  induction l with
  | nil => rfl
  | cons d ds ih =>
    have hd : d < 10 := hl d (List.mem_cons_self d ds)
    have ihds := ih fun x hx => hl x (List.mem_cons_of_mem d hx)
    simp [List.map_cons, digitsOfChars?, charToDigit?_digitChar hd, ihds]

theorem decStrToNat?_pyStrOfNat (n : Nat) : decStrToNat? (pyStrOfNat n) = some n := by
  by_cases h : n = 0
  · subst h; decide
  · have hne : natDecDigits n ≠ [] := by
      rw [natDecDigits, if_neg h]; exact List.cons_ne_nil _ _
    rw [pyStrOfNat, if_neg h, decStrToNat?]
    rw [if_neg (by simpa using hne)]
    rw [← List.map_reverse]
    rw [digitsOfChars?_digits _ (fun d hd => natDecDigits_lt n d (List.mem_reverse.mp hd))]
    simp [decValue_natDecDigits]

theorem pyStrOfNat_injective : Function.Injective pyStrOfNat := by
  intro a b hab
  have := decStrToNat?_pyStrOfNat a
  rw [hab, decStrToNat?_pyStrOfNat b] at this
  exact (Option.some_injective _ this).symm

theorem pyStrOfNat_head_digit (n : Nat) :
    ∃ c cs, (pyStrOfNat n).data = c :: cs ∧ '0' ≤ c ∧ c ≤ '9' := by
  have h9 : ∀ d < 10, '0' ≤ Nat.digitChar d ∧ Nat.digitChar d ≤ '9' := by decide
  by_cases h : n = 0
  · subst h; exact ⟨'0', [], by decide⟩
  · rw [pyStrOfNat, if_neg h]
    have hne : ((natDecDigits n).map Nat.digitChar).reverse ≠ [] := by
      rw [natDecDigits, if_neg h]; simp
    rcases List.exists_cons_of_ne_nil hne with ⟨c, cs, hc⟩
    refine ⟨c, cs, hc, ?_⟩
    have hcmem : c ∈ ((natDecDigits n).map Nat.digitChar).reverse := by
      rw [hc]; exact List.mem_cons_self c cs
    rcases List.mem_map.mp (List.mem_reverse.mp hcmem) with ⟨d, hd, hdc⟩
    exact hdc ▸ h9 d (natDecDigits_lt n d hd)

theorem pyStrOfInt_injective : Function.Injective pyStrOfInt := by
  intro a b hab
  unfold pyStrOfInt at hab
  rcases pyStrOfNat_head_digit a.natAbs with ⟨ca, csa, hca, hca0, hca9⟩
  rcases pyStrOfNat_head_digit b.natAbs with ⟨cb, csb, hcb, hcb0, hcb9⟩
  by_cases ha : a < 0 <;> by_cases hb : b < 0 <;>
      simp only [if_pos, if_neg, ha, hb, ite_true, ite_false] at hab
  · have : a.natAbs = b.natAbs := by
      have : pyStrOfNat a.natAbs = pyStrOfNat b.natAbs := by
        have := congrArg String.data hab
        simpa [String.data_append] using String.ext (by simpa [String.data_append] using this)
      exact pyStrOfNat_injective this
    omega
  · exfalso
    have hdata := congrArg String.data hab
    rw [String.data_append] at hdata
    have hbn : pyStrOfNat b.toNat = pyStrOfNat b.natAbs := by
      congr 1; omega
    rw [hbn, hcb] at hdata
    rw [show ("-" : String).data = ['-'] from rfl] at hdata
    have : '-' = cb := by simpa using congrArg (List.headI) hdata
    subst this; revert hcb0; decide
  · exfalso
    have hdata := congrArg String.data hab
    rw [String.data_append] at hdata
    have han : pyStrOfNat a.toNat = pyStrOfNat a.natAbs := by
      congr 1; omega
    rw [han, hca] at hdata
    rw [show ("-" : String).data = ['-'] from rfl] at hdata
    have : ca = '-' := by simpa using congrArg (List.headI) hdata
    subst this; revert hca0; decide
  · have : a.natAbs = b.natAbs := by
      apply pyStrOfNat_injective
      have h1 : pyStrOfNat a.toNat = pyStrOfNat a.natAbs := by congr 1; omega
      have h2 : pyStrOfNat b.toNat = pyStrOfNat b.natAbs := by congr 1; omega
      rw [← h1, ← h2, hab]
    omega

/-- Python truthiness of an optional string (`None` and `""` are falsy). -/
def pyTruthyStr : Option String → Bool
  | none => false
  | some s => s ≠ ""

/-- Python truthiness of an optional integer (`None` and `0` are falsy). -/
def pyTruthyInt : Option Int → Bool
  | none => false
  | some i => i ≠ 0

end Umum

namespace Umum

/-! ## Embedding of `name_generator.py` -/

/-- A calendar date, used both for `datetime.now()` and for parsed dates. -/
structure Date where
  year : Nat
  month : Nat
  day : Nat
deriving DecidableEq, Repr

/-- Python `f"{n:02d}"` for a natural number. -/
def pad2 (n : Nat) : String :=
  if n < 10 then "0" ++ pyStrOfNat n else pyStrOfNat n

/-- Embedding of `generate_birth_date` from `name_generator.py`.  `today` stands for
`datetime.now()`; `r1`, `r2`, `r3` are the seeds of the three
`random.randint` calls (`years_ago`, `birth_month`, `birth_day`). -/
def generate_birth_date (today : Date) (r1 r2 r3 : Nat) : String :=
  let years_ago := pyRandint 18 24 r1
  let birth_year : Int := (today.year : Int) - years_ago
  let birth_month := pyRandint 1 12 r2
  let birth_day :=
    if birth_month = 2 then pyRandint 1 28 r3
    else if birth_month = 4 ∨ birth_month = 6 ∨ birth_month = 9 ∨ birth_month = 11 then
      pyRandint 1 30 r3
    else pyRandint 1 31 r3
  pyStrOfInt birth_year ++ "-" ++ pad2 birth_month ++ "-" ++ pad2 birth_day

/-- Split a character list on a separator (like Python `str.split(sep)`). -/
def splitOnChar (sep : Char) : List Char → List (List Char)
  | [] => [[]]
  | c :: cs =>
    let r := splitOnChar sep cs
    if c = sep then [] :: r
    else
      match r with
      | [] => [[c]]
      | g :: gs => (c :: g) :: gs

/-- Parse a `YYYY-MM-DD` string into numeric year, month, day. -/
def parseDate? (s : String) : Option (Nat × Nat × Nat) :=
  match splitOnChar '-' s.data with
  | [ys, ms, ds] =>
    match decStrToNat? (String.mk ys), decStrToNat? (String.mk ms),
        decStrToNat? (String.mk ds) with
    | some y, some m, some d => some (y, m, d)
    | _, _, _ => none
  | _ => none

def isLeapYear (y : Nat) : Bool :=
  (y % 4 = 0 && y % 100 != 0) || y % 400 = 0

def daysInMonth (y m : Nat) : Nat :=
  if m = 2 then (if isLeapYear y then 29 else 28)
  else if m = 4 ∨ m = 6 ∨ m = 9 ∨ m = 11 then 30
  else 31

/-- Valid calendar date: month 1-12 and a day valid for that month. -/
def validCalendarDate (y m d : Nat) : Prop :=
  1 ≤ m ∧ m ≤ 12 ∧ 1 ≤ d ∧ d ≤ daysInMonth y m

instance (y m d : Nat) : Decidable (validCalendarDate y m d) := by
  unfold validCalendarDate; infer_instance

/-- Age in whole years on day `today` of a person born `byr-bm-bd`. -/
def ageOn (today : Date) (byr bm bd : Nat) : Int :=
  (today.year : Int) - byr -
    (if today.month < bm ∨ (today.month = bm ∧ today.day < bd) then 1 else 0)

theorem splitOnChar_not_mem {sep : Char} : ∀ {l : List Char}, sep ∉ l →
    splitOnChar sep l = [l] := by
  intro l
  induction l with
  | nil => intro _; rfl
  | cons c cs ih =>
    intro h
    have hc : ¬(c = sep) := fun hcs => h (hcs ▸ List.mem_cons_self c cs)
    have hcs : sep ∉ cs := fun hm => h (List.mem_cons_of_mem c hm)
    simp only [splitOnChar, if_neg hc, ih hcs]

theorem splitOnChar_append {sep : Char} : ∀ {l : List Char} (rest : List Char),
    sep ∉ l → splitOnChar sep (l ++ sep :: rest) = l :: splitOnChar sep rest := by
  intro l
  induction l with
  | nil => intro rest _; simp [splitOnChar]
  | cons c cs ih =>
    intro rest h
    have hc : ¬(c = sep) := fun hcs => h (hcs ▸ List.mem_cons_self c cs)
    have hcs : sep ∉ cs := fun hm => h (List.mem_cons_of_mem c hm)
    simp only [List.cons_append, splitOnChar, if_neg hc]
    rw [show (cs.append (sep :: rest)) = cs ++ sep :: rest from rfl, ih rest hcs]

theorem pyStrOfNat_data_digits (n : Nat) :
    ∀ c ∈ (pyStrOfNat n).data, '0' ≤ c ∧ c ≤ '9' := by
  have h9 : ∀ d < 10, '0' ≤ Nat.digitChar d ∧ Nat.digitChar d ≤ '9' := by decide
  by_cases h : n = 0
  · subst h; decide
  · rw [pyStrOfNat, if_neg h]
    intro c hc
    rcases List.mem_map.mp (List.mem_reverse.mp hc) with ⟨d, hd, hdc⟩
    exact hdc ▸ h9 d (natDecDigits_lt n d hd)

theorem dash_not_mem_pyStrOfNat (n : Nat) : '-' ∉ (pyStrOfNat n).data := by
  intro h
  have := (pyStrOfNat_data_digits n '-' h).1
  revert this; decide

theorem zero_cons_digits_value (n : Nat) :
    decStrToNat? ("0" ++ pyStrOfNat n) = some n := by
  have hd := decStrToNat?_pyStrOfNat n
  rw [decStrToNat?] at hd
  rcases hne : (pyStrOfNat n).data with _ | ⟨c, cs⟩
  · rw [hne] at hd; simp at hd
  · rw [hne, if_neg (by simp)] at hd
    rcases hds : digitsOfChars? (c :: cs) with _ | ds
    · rw [hds] at hd; simp at hd
    · rw [hds] at hd
      simp at hd
      rw [decStrToNat?]
      have hdata : ("0" ++ pyStrOfNat n).data = '0' :: c :: cs := by
        rw [String.data_append, hne]; rfl
      rw [hdata, if_neg (by simp)]
      have : digitsOfChars? ('0' :: c :: cs) = some (0 :: ds) := by
        rw [show digitsOfChars? ('0' :: c :: cs) =
          (match charToDigit? '0', digitsOfChars? (c :: cs) with
            | some d, some ds => some (d :: ds)
            | _, _ => none) from rfl, hds,
          show charToDigit? '0' = some 0 from rfl]
      rw [this]
      have hz : ∀ l : List Nat, decValue (l ++ [0]) = decValue l := by
        intro l
        induction l with
        | nil => rfl
        | cons x xs ih =>
          simp only [List.cons_append, decValue]
          rw [show xs.append [0] = xs ++ [0] from rfl, ih]
      simp only [Option.map_some', Option.some.injEq, List.reverse_cons, hz, hd]

theorem decStrToNat?_pad2 (m : Nat) : decStrToNat? (pad2 m) = some m := by
  by_cases h : m < 10
  · rw [pad2, if_pos h]; exact zero_cons_digits_value m
  · rw [pad2, if_neg h]; exact decStrToNat?_pyStrOfNat m

theorem dash_not_mem_pad2 (m : Nat) : '-' ∉ (pad2 m).data := by
  rw [pad2]
  by_cases h : m < 10
  · rw [if_pos h]
    intro hmem
    rw [String.data_append] at hmem
    rcases List.mem_append.mp hmem with h1 | h2
    · revert h1; decide
    · exact dash_not_mem_pyStrOfNat m h2
  · rw [if_neg h]; exact dash_not_mem_pyStrOfNat m

theorem string_mk_data (s : String) : String.mk s.data = s := rfl

/-- Round trip: the generated birth-date string parses back to its numeric
components (for any plausible current year). -/
theorem generate_birth_date_parse (today : Date) (r1 r2 r3 : Nat)
    (hy : 24 ≤ today.year) :
    parseDate? (generate_birth_date today r1 r2 r3) =
      some (today.year - pyRandint 18 24 r1, pyRandint 1 12 r2,
        if pyRandint 1 12 r2 = 2 then pyRandint 1 28 r3
        else if pyRandint 1 12 r2 = 4 ∨ pyRandint 1 12 r2 = 6 ∨
            pyRandint 1 12 r2 = 9 ∨ pyRandint 1 12 r2 = 11 then pyRandint 1 30 r3
        else pyRandint 1 31 r3) := by
  set ya := pyRandint 18 24 r1 with hya
  set bm := pyRandint 1 12 r2 with hbm
  set bd := (if pyRandint 1 12 r2 = 2 then pyRandint 1 28 r3
      else if pyRandint 1 12 r2 = 4 ∨ pyRandint 1 12 r2 = 6 ∨
          pyRandint 1 12 r2 = 9 ∨ pyRandint 1 12 r2 = 11 then pyRandint 1 30 r3
      else pyRandint 1 31 r3) with hbd
  have hya24 : ya ≤ 24 := pyRandint_le (by decide)
  have hyanat : ((today.year : Int) - ya) = ((today.year - ya : Nat) : Int) := by
    have : ya ≤ today.year := le_trans hya24 hy
    omega
  have hstr : generate_birth_date today r1 r2 r3 =
      pyStrOfNat (today.year - ya) ++ "-" ++ pad2 bm ++ "-" ++ pad2 bd := by
    rw [generate_birth_date]
    simp only [← hya, ← hbm, ← hbd]
    rw [hyanat, pyStrOfInt, if_neg (by omega), Int.toNat_natCast]
  rw [hstr, parseDate?]
  have hdata : (pyStrOfNat (today.year - ya) ++ "-" ++ pad2 bm ++ "-" ++ pad2 bd).data =
      (pyStrOfNat (today.year - ya)).data ++ '-' :: ((pad2 bm).data ++ '-' :: (pad2 bd).data) := by
    simp [String.data_append, List.append_assoc]
  rw [hdata, splitOnChar_append _ (dash_not_mem_pyStrOfNat _),
    splitOnChar_append _ (dash_not_mem_pad2 _),
    splitOnChar_not_mem (dash_not_mem_pad2 _)]
  simp only [string_mk_data, decStrToNat?_pyStrOfNat, decStrToNat?_pad2]

end Umum

namespace Umum

/-- C4, claim part that fails on the code: the claimed age band is 18-24,
but the code only constrains the birth *year* difference to 18-24 and picks
month and day independently of today's date, so the generated person can
still be 17.  Concrete run: today 2026-10-12, seeds picking
`years_ago = 18`, month 12, day 31 give birth date 2008-12-31 and age 17. -/
theorem generate_birth_date_age_band_cex :
    parseDate? (generate_birth_date ⟨2026, 10, 12⟩ 0 11 30) = some (2008, 12, 31) ∧
    ageOn ⟨2026, 10, 12⟩ 2008 12 31 = 17 ∧
    ¬(18 ≤ ageOn ⟨2026, 10, 12⟩ 2008 12 31) := by
  refine ⟨?_, by decide, by decide⟩
  have h := generate_birth_date_parse ⟨2026, 10, 12⟩ 0 11 30 (by decide)
  norm_num [pyRandint] at h
  exact h

/-- C4 (amended): every generated birth date parses as a valid calendar
date (month 1-12, day valid for that month), and the person's age at
generation time lies within 17 to 24 years (not 18 to 24: the band 18-24
constrains only the birth-year difference). -/
theorem generate_birth_date_valid_and_age (today : Date) (r1 r2 r3 : Nat)
    (hy : 24 ≤ today.year) :
    ∃ y m d, parseDate? (generate_birth_date today r1 r2 r3) = some (y, m, d) ∧
      validCalendarDate y m d ∧ 17 ≤ ageOn today y m d ∧ ageOn today y m d ≤ 24 := by
  have h := generate_birth_date_parse today r1 r2 r3 hy
  set ya := pyRandint 18 24 r1 with hya
  set bm := pyRandint 1 12 r2 with hbm
  set bd := (if pyRandint 1 12 r2 = 2 then pyRandint 1 28 r3
      else if pyRandint 1 12 r2 = 4 ∨ pyRandint 1 12 r2 = 6 ∨
          pyRandint 1 12 r2 = 9 ∨ pyRandint 1 12 r2 = 11 then pyRandint 1 30 r3
      else pyRandint 1 31 r3) with hbd
  refine ⟨today.year - ya, bm, bd, h, ?_, ?_, ?_⟩
  · have hm1 : 1 ≤ bm := le_pyRandint 1 12 r2
    have hm12 : bm ≤ 12 := pyRandint_le (by decide)
    refine ⟨hm1, hm12, ?_, ?_⟩
    · rw [hbd]
      split
      · exact le_pyRandint _ _ _
      · split
        · exact le_pyRandint _ _ _
        · exact le_pyRandint _ _ _
    · rw [hbd, daysInMonth]
      rcases eq_or_ne bm 2 with h2 | h2
      · rw [if_pos (hbm ▸ h2), if_pos h2]
        have : pyRandint 1 28 r3 ≤ 28 := pyRandint_le (by decide)
        split <;> omega
      · rw [if_neg (hbm ▸ h2), if_neg h2]
        by_cases h46911 : bm = 4 ∨ bm = 6 ∨ bm = 9 ∨ bm = 11
        · rw [if_pos (hbm ▸ h46911), if_pos h46911]
          exact pyRandint_le (by decide)
        · rw [if_neg (hbm ▸ h46911), if_neg h46911]
          exact pyRandint_le (by decide)
  · have h18 : 18 ≤ ya := le_pyRandint 18 24 r1
    have h24 : ya ≤ 24 := pyRandint_le (by decide)
    rw [ageOn]
    split <;> [skip; skip] <;> omega
  · have h18 : 18 ≤ ya := le_pyRandint 18 24 r1
    have h24 : ya ≤ 24 := pyRandint_le (by decide)
    rw [ageOn]
    split <;> omega

/-- Concrete instance of the amended C4 theorem. -/
theorem generate_birth_date_valid_and_age_witness :
    24 ≤ (Date.mk 2026 10 12).year ∧
    ∃ y m d, parseDate? (generate_birth_date ⟨2026, 10, 12⟩ 0 0 0) = some (y, m, d) ∧
      validCalendarDate y m d ∧ 17 ≤ ageOn ⟨2026, 10, 12⟩ y m d ∧
      ageOn ⟨2026, 10, 12⟩ y m d ≤ 24 :=
  ⟨by decide, generate_birth_date_valid_and_age ⟨2026, 10, 12⟩ 0 0 0 (by decide)⟩

end Umum

namespace Umum

/-- Python `str.lower()` for one character (ASCII model). -/
def pyCharLower (c : Char) : Char :=
  if 'A' ≤ c ∧ c ≤ 'Z' then Char.ofNat (c.toNat + 32) else c

/-- Python `str.lower()`. -/
def pyLower (s : String) : String := String.mk (s.data.map pyCharLower)

/-- Python `s[0]` as a one-character string (meaningful for nonempty `s`). -/
def pyHead (s : String) : String := String.mk (s.data.take 1)

/-- Models `random.choice(xs)` for strings, driven by a seed. -/
def pyChoice (xs : List String) (r : Nat) : String := xs.getD (r % xs.length) ""

/-- The `domains` pool of `generate_student_email`. -/
def EMAIL_DOMAINS : List String :=
  ["student.edu", "mail.edu", "college.edu", "university.edu",
   "stu.edu", "campus.edu", "school.edu"]

/-- Embedding of `generate_student_email` from `name_generator.py`.  `n1`-`n4` seed the
four `random.randint` calls in the `patterns` list (Python evaluates all
four eagerly), `rU` seeds `random.choice(patterns)` and `rD` seeds
`random.choice(domains)`.  `first_name[0]` / `last_name[0]` raise
`IndexError` on an empty string, modelled as `none`. -/
def generate_student_email (first last : String) (n1 n2 n3 n4 rU rD : Nat) :
    Option String :=
  if first.data = [] ∨ last.data = [] then none
  else
    let patterns : List String := [
      pyLower first ++ "." ++ pyLower last ++ pyStrOfNat (pyRandint 10 99 n1),
      pyLower first ++ pyLower last ++ pyStrOfNat (pyRandint 100 999 n2),
      pyLower (pyHead first) ++ pyLower last ++ pyStrOfNat (pyRandint 10 99 n3),
      pyLower first ++ pyLower (pyHead last) ++ pyStrOfNat (pyRandint 1000 9999 n4)]
    let username := pyChoice patterns rU
    some (username ++ "@" ++ pyChoice EMAIL_DOMAINS rD)

/-- The claim's notion of "derives from the supplied name via one of the
configured name patterns". -/
def emailLocalFromName (first last localPart : String) : Prop :=
  (∃ n, 10 ≤ n ∧ n ≤ 99 ∧
    localPart = pyLower first ++ "." ++ pyLower last ++ pyStrOfNat n) ∨
  (∃ n, 100 ≤ n ∧ n ≤ 999 ∧
    localPart = pyLower first ++ pyLower last ++ pyStrOfNat n) ∨
  (∃ n, 10 ≤ n ∧ n ≤ 99 ∧
    localPart = pyLower (pyHead first) ++ pyLower last ++ pyStrOfNat n) ∨
  (∃ n, 1000 ≤ n ∧ n ≤ 9999 ∧
    localPart = pyLower first ++ pyLower (pyHead last) ++ pyStrOfNat n)

theorem pyChoice_mem (xs : List String) (r : Nat) (h : xs ≠ []) :
    pyChoice xs r ∈ xs := by
  rw [pyChoice]
  have hlen : 0 < xs.length := List.length_pos.mpr h
  have hlt : r % xs.length < xs.length := Nat.mod_lt _ hlen
  rw [List.getD_eq_getElem xs _ hlt]
  exact List.getElem_mem hlt

/-- C5: every generated email splits as `localPart@domain` with the domain
drawn from the configured pool and the local part built from the supplied
name by one of the four configured patterns. -/
theorem generate_student_email_spec (first last : String)
    (n1 n2 n3 n4 rU rD : Nat) (e : String)
    (h : generate_student_email first last n1 n2 n3 n4 rU rD = some e) :
    ∃ localPart dom, e = localPart ++ "@" ++ dom ∧ dom ∈ EMAIL_DOMAINS ∧
      emailLocalFromName first last localPart := by
  rw [generate_student_email] at h
  by_cases hg : first.data = [] ∨ last.data = []
  · rw [if_pos hg] at h; exact absurd h (by simp)
  · rw [if_neg hg] at h
    simp only [Option.some.injEq] at h
    subst h
    refine ⟨_, _, rfl, pyChoice_mem _ _ (by simp [EMAIL_DOMAINS]), ?_⟩
    have h4 : rU % 4 = 0 ∨ rU % 4 = 1 ∨ rU % 4 = 2 ∨ rU % 4 = 3 := by omega
    rw [emailLocalFromName]
    rcases h4 with h0 | h1 | h2 | h3
    · refine Or.inl ⟨pyRandint 10 99 n1, le_pyRandint _ _ _,
        pyRandint_le (by decide), ?_⟩
      simp [pyChoice, h0]
    · refine Or.inr (Or.inl ⟨pyRandint 100 999 n2, le_pyRandint _ _ _,
        pyRandint_le (by decide), ?_⟩)
      simp [pyChoice, h1]
    · refine Or.inr (Or.inr (Or.inl ⟨pyRandint 10 99 n3, le_pyRandint _ _ _,
        pyRandint_le (by decide), ?_⟩))
      simp [pyChoice, h2]
    · refine Or.inr (Or.inr (Or.inr ⟨pyRandint 1000 9999 n4, le_pyRandint _ _ _,
        pyRandint_le (by decide), ?_⟩))
      simp [pyChoice, h3]

/-- Concrete instance of the C5 theorem. -/
theorem generate_student_email_spec_witness :
    generate_student_email "John" "Smith" 0 0 0 0 0 0 =
      some "john.smith10@student.edu" ∧
    ∃ localPart dom, "john.smith10@student.edu" = localPart ++ "@" ++ dom ∧
      dom ∈ EMAIL_DOMAINS ∧ emailLocalFromName "John" "Smith" localPart := by
  have hEval : generate_student_email "John" "Smith" 0 0 0 0 0 0 =
      some "john.smith10@student.edu" := by
    simp [generate_student_email, pyChoice, pyLower, pyCharLower, pyHead,
      pyRandint, pyStrOfNat, natDecDigits, EMAIL_DOMAINS]
    decide
  exact ⟨hEval, generate_student_email_spec "John" "Smith" 0 0 0 0 0 0
    "john.smith10@student.edu" hEval⟩

end Umum

namespace Umum

/-! ## Embedding of `SheerIDVerifier.__init__` and `parse_verification_id`
(`sheerid_verifier.py`) -/

/-- The regex character class `[a-f0-9]` under `re.IGNORECASE`. -/
def isHexCI (c : Char) : Bool :=
  ('a' ≤ c && c ≤ 'f') || ('A' ≤ c && c ≤ 'F') || ('0' ≤ c && c ≤ '9')

/-- Match exactly `n` characters of the class `[a-f0-9]` (with
`re.IGNORECASE`) at the front; return the captured characters and the
remaining input. -/
def takeHex : Nat → List Char → Option (List Char × List Char)
  | 0, cs => some ([], cs)
  | _ + 1, [] => none
  | n + 1, c :: cs =>
    if isHexCI c then (takeHex n cs).map fun p => (c :: p.1, p.2) else none

/-- Semantics of `re.match(r'^[a-f0-9]{32}$', s, re.I)` from
`SheerIDVerifier.__init__`: 32 class characters from the start, then the
end of the string -- where Python `$` also matches just before one final
newline. -/
def reFullMatchHex32 (s : String) : Bool :=
  match takeHex 32 s.data with
  | some (_, rest) => rest = [] || rest = ['\n']
  | none => false

/-- The state of a constructed `SheerIDVerifier`.  Only `verification_id`
is kept; `user_agent`, `device_fingerprint`, the HTTP client and the
session clock play no role in any claim. -/
structure SheerIDVerifier where
  verification_id : String
deriving DecidableEq, Repr

/-- Embedding of `SheerIDVerifier.__init__`: `ValueError` (the `.error`
branch) iff the regex above does not match. -/
def SheerIDVerifier.init (verification_id : String) : Except String SheerIDVerifier :=
  if reFullMatchHex32 verification_id then .ok ⟨verification_id⟩
  else .error ("Invalid verification_id format: " ++ verification_id)

/-- The claim's format: a string of exactly 32 hexadecimal characters
(case-insensitive). -/
def isExact32Hex (s : String) : Prop :=
  s.data.length = 32 ∧ ∀ c ∈ s.data, isHexCI c

instance (s : String) : Decidable (isExact32Hex s) := by
  unfold isExact32Hex; infer_instance

theorem takeHex_eq_some : ∀ (n : Nat) (cs p r : List Char),
    takeHex n cs = some (p, r) →
    cs = p ++ r ∧ p.length = n ∧ ∀ c ∈ p, isHexCI c := by
  intro n
  induction n with
  | zero =>
    intro cs p r h
    simp only [takeHex, Option.some.injEq, Prod.mk.injEq] at h
    rcases h with ⟨hp, hr⟩
    subst hp; subst hr
    exact ⟨rfl, rfl, by simp⟩
  | succ n ih =>
    intro cs p r h
    match cs with
    | [] => simp [takeHex] at h
    | c :: cs' =>
      rw [takeHex] at h
      by_cases hc : isHexCI c
      · rw [if_pos hc] at h
        rcases ht : takeHex n cs' with _ | ⟨p', r'⟩
        · rw [ht] at h; simp at h
        · rw [ht] at h
          simp only [Option.map_some', Option.some.injEq, Prod.mk.injEq] at h
          rcases h with ⟨hp, hr⟩
          subst hr
          rcases ih cs' p' r' ht with ⟨hcs, hlen, hhex⟩
          subst hcs
          constructor
          · rw [← hp]; rfl
          constructor
          · rw [← hp]; simp [hlen]
          · intro x hx
            rw [← hp] at hx
            rcases List.mem_cons.mp hx with h1 | h2
            · exact h1 ▸ hc
            · exact hhex x h2
      · rw [if_neg hc] at h; simp at h

theorem takeHex_of : ∀ (p r : List Char), (∀ c ∈ p, isHexCI c) →
    takeHex p.length (p ++ r) = some (p, r) := by
  intro p
  induction p with
  | nil => intro r _; rfl
  | cons c cs ih =>
    intro r h
    have hc : isHexCI c = true := h c (List.mem_cons_self c cs)
    rw [List.length_cons, List.cons_append, takeHex, if_pos hc,
      ih r fun x hx => h x (List.mem_cons_of_mem c hx)]
    rfl

/-- C9 counterexample: 32 hex characters followed by one newline is a
33-character string, yet the constructor accepts it (Python `$`-semantics),
so the "raises iff not exactly 32 hex characters" claim is false. -/
theorem sheerid_init_trailing_newline_cex :
    (SheerIDVerifier.init "aaaaaaaaaaaaaaaaaaaaaaaaaaaaaaaa\n").toOption.isSome = true ∧
    ¬isExact32Hex "aaaaaaaaaaaaaaaaaaaaaaaaaaaaaaaa\n" := by
  constructor
  · decide
  · decide

/-- C9 (amended): `SheerIDVerifier.__init__` raises `ValueError` iff the
supplied id is not 32 hexadecimal characters (case-insensitive) optionally
followed by a single trailing newline; construction succeeds for exactly
those strings. -/
theorem sheerid_init_iff (s : String) :
    (SheerIDVerifier.init s).toOption.isSome = true ↔
      (isExact32Hex s ∨ ∃ t, isExact32Hex t ∧ s = t ++ "\n") := by
  rw [SheerIDVerifier.init]
  constructor
  · intro h
    by_cases hm : reFullMatchHex32 s
    · rw [reFullMatchHex32] at hm
      rcases ht : takeHex 32 s.data with _ | ⟨p, rest⟩
      · rw [ht] at hm; simp at hm
      · rw [ht] at hm
        rcases takeHex_eq_some 32 s.data p rest ht with ⟨hcs, hlen, hhex⟩
        simp only [List.nil_eq, Bool.or_eq_true, decide_eq_true_eq] at hm
        rcases hm with hr | hr
        · left
          refine ⟨?_, ?_⟩
          · rw [hcs, hr]; simpa using hlen
          · intro c hc; rw [hcs, hr] at hc; exact hhex c (by simpa using hc)
        · right
          refine ⟨String.mk p, ⟨by simpa using hlen, by simpa using hhex⟩, ?_⟩
          apply String.ext
          rw [String.data_append, hcs, hr]
    · rw [if_neg hm] at h; simp [Except.toOption] at h
  · intro h
    rcases h with h | ⟨t, ⟨hlen, hhex⟩, hst⟩
    · have hmatch : reFullMatchHex32 s = true := by
        have h0 := takeHex_of s.data [] h.2
        rw [List.append_nil, h.1] at h0
        rw [reFullMatchHex32, h0]
        simp
      rw [if_pos hmatch]; rfl
    · have hmatch : reFullMatchHex32 s = true := by
        have h0 := takeHex_of t.data ['\n'] hhex
        rw [hlen] at h0
        rw [reFullMatchHex32, hst, String.data_append,
          show ("\n" : String).data = ['\n'] from rfl, h0]
        simp
      rw [if_pos hmatch]; rfl

/-- Concrete instance of the amended C9 theorem. -/
theorem sheerid_init_iff_witness :
    (SheerIDVerifier.init "0123456789abcdef0123456789ABCDEF").toOption.isSome = true ↔
      (isExact32Hex "0123456789abcdef0123456789ABCDEF" ∨
        ∃ t, isExact32Hex t ∧ "0123456789abcdef0123456789ABCDEF" = t ++ "\n") :=
  sheerid_init_iff "0123456789abcdef0123456789ABCDEF"

end Umum


namespace Umum

/-- Case-insensitive match of a literal (the `re.IGNORECASE` treatment of
the fixed part of each pattern); returns the rest of the input. -/
def stripLitCI : List Char → List Char → Option (List Char)
  | [], cs => some cs
  | _ :: _, [] => none
  | l :: ls, c :: cs =>
    if pyCharLower c = pyCharLower l then stripLitCI ls cs else none

/-- Match one `parse_verification_id` pattern (literal then
`([a-f0-9]{32})`) anchored at the front, returning capture group 1. -/
def matchPatAt (lit cs : List Char) : Option (List Char) :=
  (stripLitCI lit cs).bind fun rest => (takeHex 32 rest).map fun p => p.1

/-- Semantics of `re.search` for such a pattern: try every start position
left to right. -/
def searchPat (lit : List Char) : List Char → Option (List Char)
  | [] => matchPatAt lit []
  | c :: cs => (matchPatAt lit (c :: cs)).orElse fun _ => searchPat lit cs

/-- Embedding of `SheerIDVerifier.parse_verification_id`: the three
patterns `verificationId=`, `verification/`, `ver/` are tried in order,
each with `re.search(..., re.IGNORECASE)`, and group 1 is returned. -/
def parse_verification_id (url : String) : Option String :=
  (((searchPat "verificationId=".data url.data).orElse fun _ =>
    (searchPat "verification/".data url.data).orElse fun _ =>
      searchPat "ver/".data url.data).map String.mk)

theorem matchPatAt_spec (lit cs g : List Char) (h : matchPatAt lit cs = some g) :
    g.length = 32 ∧ ∀ c ∈ g, isHexCI c := by
  rw [matchPatAt] at h
  rcases hs : stripLitCI lit cs with _ | rest
  · rw [hs, Option.none_bind] at h; exact absurd h (by simp)
  · rw [hs, Option.some_bind] at h
    rcases ht : takeHex 32 rest with _ | ⟨p, r⟩
    · rw [ht] at h; exact absurd h (by simp)
    · rw [ht, Option.map_some'] at h
      simp only [Option.some.injEq] at h
      subst h
      rcases takeHex_eq_some 32 rest p r ht with ⟨_, hlen, hhex⟩
      exact ⟨hlen, hhex⟩

theorem searchPat_spec (lit : List Char) : ∀ (cs g : List Char),
    searchPat lit cs = some g → g.length = 32 ∧ ∀ c ∈ g, isHexCI c := by
  intro cs
  induction cs with
  | nil => intro g h; exact matchPatAt_spec lit [] g h
  | cons c cs' ih =>
    intro g h
    rw [searchPat] at h
    rcases hm : matchPatAt lit (c :: cs') with _ | g'
    · rw [hm] at h; simp only [Option.orElse] at h; exact ih g h
    · rw [hm] at h
      simp only [Option.orElse, Option.some.injEq] at h
      subst h
      exact matchPatAt_spec lit (c :: cs') _ hm

theorem searchPat_chain_spec (url : String) (g : List Char)
    (h : ((searchPat "verificationId=".data url.data).orElse fun _ =>
      (searchPat "verification/".data url.data).orElse fun _ =>
        searchPat "ver/".data url.data) = some g) :
    g.length = 32 ∧ ∀ c ∈ g, isHexCI c := by
  rcases h1 : searchPat "verificationId=".data url.data with _ | g1
  · rw [h1] at h
    simp only [Option.orElse] at h
    rcases h2 : searchPat "verification/".data url.data with _ | g2
    · rw [h2] at h
      simp only [Option.orElse] at h
      exact searchPat_spec _ _ _ h
    · rw [h2] at h
      simp only [Option.orElse, Option.some.injEq] at h
      subst h
      exact searchPat_spec _ _ _ h2
  · rw [h1] at h
    simp only [Option.orElse, Option.some.injEq] at h
    subst h
    exact searchPat_spec _ _ _ h1

/-- C10: whatever `parse_verification_id` returns is a 32-character
hexadecimal string, and constructing a `SheerIDVerifier` from it always
succeeds (the parse-then-construct round trip never raises). -/
theorem parse_verification_id_roundtrip (url v : String)
    (h : parse_verification_id url = some v) :
    v.data.length = 32 ∧ (∀ c ∈ v.data, isHexCI c) ∧
      SheerIDVerifier.init v = .ok ⟨v⟩ := by
  rw [parse_verification_id] at h
  rcases hc : ((searchPat "verificationId=".data url.data).orElse fun _ =>
      (searchPat "verification/".data url.data).orElse fun _ =>
        searchPat "ver/".data url.data) with _ | g
  · rw [hc] at h; exact absurd h (by simp)
  · rw [hc, Option.map_some'] at h
    simp only [Option.some.injEq] at h
    subst h
    have hspec := searchPat_chain_spec url g hc
    refine ⟨hspec.1, hspec.2, ?_⟩
    have hmatch : reFullMatchHex32 (String.mk g) = true := by
      have h0 := takeHex_of g [] hspec.2
      rw [List.append_nil, hspec.1] at h0
      rw [reFullMatchHex32, show (String.mk g).data = g from rfl, h0]
      simp
    rw [SheerIDVerifier.init, if_pos hmatch]

/-- Concrete instance of the C10 theorem. -/
theorem parse_verification_id_roundtrip_witness :
    parse_verification_id
        "https://x.io/?verificationId=0123456789abcdef0123456789abcdef" =
      some "0123456789abcdef0123456789abcdef" ∧
    ("0123456789abcdef0123456789abcdef" : String).data.length = 32 ∧
    (∀ c ∈ ("0123456789abcdef0123456789abcdef" : String).data, isHexCI c) ∧
      SheerIDVerifier.init "0123456789abcdef0123456789abcdef" =
        .ok ⟨"0123456789abcdef0123456789abcdef"⟩ := by
  have hEval : parse_verification_id
      "https://x.io/?verificationId=0123456789abcdef0123456789abcdef" =
      some "0123456789abcdef0123456789abcdef" := by decide
  have h := parse_verification_id_roundtrip _ _ hEval
  exact ⟨hEval, h.1, h.2.1, h.2.2⟩

end Umum

namespace Umum

/-! ## Embedding of `img_generator.py` -/

/-- Abstract raster image.  The PIL drawing primitives are out of scope
(the spec treats them as an opaque "render a labeled card image"
capability), so an image is tracked by its pixel dimensions and base
colour; drawing mutates pixels but never the dimensions. -/
structure PILImage where
  width : Nat
  height : Nat
  color : String
deriving DecidableEq, Repr

/-- Models `Image.new(mode, (w, h), color)`. -/
def PILImage.new (w h : Nat) (c : String) : PILImage := ⟨w, h, c⟩

/-- Models `img.resize((w, h))`. -/
def PILImage.resize (img : PILImage) (w h : Nat) : PILImage :=
  ⟨w, h, img.color⟩

/-- Models `card.paste(other, (x, y))`: in-place pixel write, the card's
dimensions are unchanged. -/
def PILImage.paste (img other : PILImage) (x y : Nat) : PILImage := img

/-- Models a `draw.text` / `draw.rectangle` call: pixels only. -/
def PILImage.drawText (img : PILImage) (x y : Nat) (text : String) : PILImage :=
  img

/-- Encoded PNG bytes (`card.save(bio, 'PNG')`), abstracted by the
dimensions of the encoded raster. -/
structure PNGData where
  width : Nat
  height : Nat
deriving DecidableEq, Repr

/-- Models `img.save(bio, 'PNG'); bio.getvalue()`. -/
def PILImage.savePNG (img : PILImage) : PNGData := ⟨img.width, img.height⟩

/-- Outcome of the photo download in `get_random_student_photo`: either an
image successfully fetched and decoded, or a failure of any step inside
the `try` block (either HTTP request, JSON decode, or `Image.open`). -/
inductive FetchOutcome where
  | ok (img : PILImage)
  | fail
deriving DecidableEq, Repr

/-- Embedding of `get_random_student_photo`: on any fetch failure the
`except` branch builds the 300x300 `#cccccc` placeholder with a "PHOTO"
label and returns it; no exception escapes. -/
def get_random_student_photo : FetchOutcome → PILImage
  | .ok img => img
  | .fail => (PILImage.new 300 300 "#cccccc").drawText 100 140 "PHOTO"

/-- Embedding of `generate_student_id_card`.  `qrImg` stands for the image
produced by `qr.make_image(...)` (the qrcode library is external);
`rid` and `rclass` seed the student-id and class-level `random` calls. -/
def generate_student_id_card (first last uniName city state : String)
    (fetch : FetchOutcome) (qrImg : PILImage) (rid rclass : Nat) : PNGData :=
  let card := PILImage.new 1012 638 "white"
  let card := card.drawText 0 0 "header rectangle"
  let uni_name := if uniName.data.length > 50
    then String.mk (uniName.data.take 47) ++ "..." else uniName
  let card := card.drawText 30 30 uni_name
  let card := card.drawText 30 85 (city ++ ", " ++ state)
  let card := card.drawText 30 115 "STUDENT IDENTIFICATION CARD"
  let photo := (get_random_student_photo fetch).resize 250 300
  let card := card.paste photo 30 180
  let card := card.drawText 310 180 "STUDENT NAME"
  let card := card.drawText 310 208 (first ++ " " ++ last)
  let student_id := "S" ++ pyStrOfNat (pyRandint 10000000 99999999 rid)
  let card := card.drawText 310 290 student_id
  let class_level := pyChoice ["Freshman", "Sophomore", "Junior", "Senior"] rclass
  let card := card.drawText 310 370 class_level
  let card := card.paste (qrImg.resize 120 120) 850 490
  let card := card.drawText 30 520 "Issued"
  let card := card.drawText 30 555 "Expires"
  let card := card.drawText 310 555 "This card is property of the university"
  let card := card.drawText 0 0 "border rectangle"
  card.savePNG

/-- C3: a photo-fetch failure is recovered locally by the blank 300x300
placeholder, and for every fetch outcome -- in particular a failure -- the
renderer still returns a complete encoded image of the fixed 1012x638
dimensions; the failure never surfaces to the caller. -/
theorem generate_student_id_card_photo_fail_ok :
    (get_random_student_photo FetchOutcome.fail =
      (PILImage.new 300 300 "#cccccc").drawText 100 140 "PHOTO") ∧
    ∀ (first last uniName city state : String) (fetch : FetchOutcome)
      (qrImg : PILImage) (rid rclass : Nat),
      generate_student_id_card first last uniName city state fetch qrImg
        rid rclass = PNGData.mk 1012 638 := by
  refine ⟨rfl, ?_⟩
  intro first last uniName city state fetch qrImg rid rclass
  rfl

/-! ## Embedding of `SheerIDVerifier._make_request` -/

/-- The decoded JSON body of a SheerID response (only the fields the
workflow reads); `documents` is the list of `uploadUrl`s. -/
structure RespData where
  currentStep : Option String
  errorIds : Option String
  errorText : Option String
  documents : List String
  redirectUrl : Option String
deriving DecidableEq, Repr

/-- One attempt of the `_make_request` loop: a decoded response with its
HTTP status, a timeout (`httpx.TimeoutException`) or another network error
(`httpx.RequestError`). -/
inductive AttemptOutcome where
  | resp (data : RespData) (status : Nat)
  | timeout
  | netError (msg : String)
deriving DecidableEq, Repr

/-- Transient failure in the sense of the retry loop: an HTTP 429
rate-limit response, a timeout, or a network error. -/
def isTransient : AttemptOutcome → Prop
  | .resp _ s => s = 429
  | .timeout => True
  | .netError _ => True

instance (a : AttemptOutcome) : Decidable (isTransient a) := by
  unfold isTransient; cases a <;> infer_instance

/-- Embedding of the retry loop of `_make_request` from loop index `i`:
returns the overall outcome (`.error` is the final `raise Exception`) and
the list of `time.sleep` delays in seconds (a 429 waits `2 ** attempt`;
a timeout or network error waits `RETRY_DELAY * (2 ** attempt)` with
`RETRY_DELAY = 1.0`, and only when another attempt remains). -/
def makeRequestFrom (attempts : Nat → AttemptOutcome) (retries i : Nat) :
    Except String (RespData × Nat) × List Nat :=
  if _h : i < retries then
    match attempts i with
    | .resp d s =>
      if s = 429 then
        let r := makeRequestFrom attempts retries (i + 1)
        (r.1, 2 ^ i :: r.2)
      else (.ok (d, s), [])
    | .timeout =>
      let r := makeRequestFrom attempts retries (i + 1)
      if i < retries - 1 then (r.1, 2 ^ i :: r.2) else r
    | .netError _ =>
      let r := makeRequestFrom attempts retries (i + 1)
      if i < retries - 1 then (r.1, 2 ^ i :: r.2) else r
  else (.error ("Request failed after " ++ pyStrOfNat retries ++ " attempts"), [])
termination_by retries - i

/-- The default `retries=3` (`RETRY_ATTEMPTS`), as used by `verify`. -/
def RETRY_ATTEMPTS : Nat := 3

/-- Embedding of `_make_request` at the default attempt cap. -/
def makeRequest (attempts : Nat → AttemptOutcome) :
    Except String (RespData × Nat) × List Nat :=
  makeRequestFrom attempts RETRY_ATTEMPTS 0

theorem makeRequestFrom_out (attempts : Nat → AttemptOutcome) :
    makeRequestFrom attempts 3 3 =
      (.error ("Request failed after " ++ pyStrOfNat 3 ++ " attempts"), []) := by
  rw [makeRequestFrom]
  rw [dif_neg (by omega)]

theorem makeRequestFrom_transient_step (attempts : Nat → AttemptOutcome)
    (i : Nat) (hi : i < 2) (ht : isTransient (attempts i)) :
    makeRequestFrom attempts 3 i =
      ((makeRequestFrom attempts 3 (i + 1)).1,
        2 ^ i :: (makeRequestFrom attempts 3 (i + 1)).2) := by
  rw [makeRequestFrom, dif_pos (by omega)]
  cases ha : attempts i with
  | resp d s =>
    have hs : s = 429 := by rw [ha] at ht; exact ht
    simp only [hs, if_pos]
  | timeout => simp only [if_pos (show i < 3 - 1 by omega)]
  | netError m => simp only [if_pos (show i < 3 - 1 by omega)]

theorem makeRequestFrom_last_transient (attempts : Nat → AttemptOutcome)
    (ht : isTransient (attempts 2)) :
    (makeRequestFrom attempts 3 2).1 =
      .error ("Request failed after " ++ pyStrOfNat 3 ++ " attempts") ∧
    ((makeRequestFrom attempts 3 2).2 = [4] ∨ (makeRequestFrom attempts 3 2).2 = []) := by
  rw [makeRequestFrom, dif_pos (by omega)]
  cases ha : attempts 2 with
  | resp d s =>
    have hs : s = 429 := by rw [ha] at ht; exact ht
    simp only [hs, if_pos]
    rw [show (2 : Nat) + 1 = 3 from rfl, makeRequestFrom_out]
    exact ⟨rfl, Or.inl rfl⟩
  | timeout =>
    simp only [if_neg (show ¬(2 < 3 - 1) by omega)]
    rw [show (2 : Nat) + 1 = 3 from rfl, makeRequestFrom_out]
    exact ⟨rfl, Or.inr rfl⟩
  | netError m =>
    simp only [if_neg (show ¬(2 < 3 - 1) by omega)]
    rw [show (2 : Nat) + 1 = 3 from rfl, makeRequestFrom_out]
    exact ⟨rfl, Or.inr rfl⟩

/-- C2: transient failures (timeout, network error, HTTP 429) are retried
with exponentially increasing backoff (`2 ^ attempt` seconds) up to the
fixed cap of 3 attempts, after which the call raises; and a transient
first attempt followed by a non-429 response is retried exactly once and
returns that response. -/
theorem make_request_retry_policy :
    (∀ attempts : Nat → AttemptOutcome,
      (∀ i, i < RETRY_ATTEMPTS → isTransient (attempts i)) →
      (makeRequest attempts).1 =
        .error ("Request failed after " ++ pyStrOfNat RETRY_ATTEMPTS ++ " attempts") ∧
      ((makeRequest attempts).2 = [1, 2, 4] ∨ (makeRequest attempts).2 = [1, 2])) ∧
    (∀ (attempts : Nat → AttemptOutcome) (d : RespData) (s : Nat),
      isTransient (attempts 0) → attempts 1 = .resp d s → s ≠ 429 →
      makeRequest attempts = (.ok (d, s), [1])) := by
  constructor
  · intro attempts htr
    have h0 := htr 0 (by decide)
    have h1 := htr 1 (by decide)
    have h2 := htr 2 (by decide)
    have e0 := makeRequestFrom_transient_step attempts 0 (by omega) h0
    have e1 := makeRequestFrom_transient_step attempts 1 (by omega) h1
    have e2 := makeRequestFrom_last_transient attempts h2
    have hres : makeRequest attempts =
        ((makeRequestFrom attempts 3 2).1,
          1 :: 2 :: (makeRequestFrom attempts 3 2).2) := by
      rw [makeRequest, RETRY_ATTEMPTS, e0, e1]
      rfl
    rw [hres]
    refine ⟨e2.1, ?_⟩
    rcases e2.2 with hd | hd
    · left; rw [hd]
    · right; rw [hd]
  · intro attempts d s h0 h1 hs
    have e0 := makeRequestFrom_transient_step attempts 0 (by omega) h0
    have e1 : makeRequestFrom attempts 3 1 = (.ok (d, s), []) := by
      rw [makeRequestFrom, dif_pos (by omega), h1]
      simp only [if_neg hs]
    rw [makeRequest, RETRY_ATTEMPTS, e0, e1]
    rfl

/-- Concrete instance of the C2 theorem: three timeouts raise after
backoffs 1 and 2; a timeout then a 200 response returns the response. -/
theorem make_request_retry_policy_witness :
    (makeRequest fun _ => AttemptOutcome.timeout).1 =
      .error ("Request failed after " ++ pyStrOfNat RETRY_ATTEMPTS ++ " attempts") ∧
    ((makeRequest fun _ => AttemptOutcome.timeout).2 = [1, 2, 4] ∨
      (makeRequest fun _ => AttemptOutcome.timeout).2 = [1, 2]) ∧
    makeRequest (fun i => if i = 0 then AttemptOutcome.timeout
        else AttemptOutcome.resp ⟨none, none, none, [], none⟩ 200) =
      (.ok (⟨none, none, none, [], none⟩, 200), [1]) := by
  refine ⟨?_, ?_, ?_⟩
  · exact (make_request_retry_policy.1 (fun _ => .timeout)
      (fun i _ => trivial)).1
  · exact (make_request_retry_policy.1 (fun _ => .timeout)
      (fun i _ => trivial)).2
  · exact make_request_retry_policy.2
      (fun i => if i = 0 then AttemptOutcome.timeout
        else AttemptOutcome.resp ⟨none, none, none, [], none⟩ 200)
      ⟨none, none, none, [], none⟩ 200 (by simp [isTransient]) (by simp)
      (by decide)
end Umum

namespace Umum

/-! ## Embedding of `SheerIDVerifier.verify`

The optional arguments of `verify` are generated when absent
(`NameGenerator.generate`, `generate_student_email`,
`generate_birth_date`, `get_random_verified_school`); either way the
workflow then runs on concrete values, so the embedding takes the final
`first_name`, `last_name`, `email`, `birth_date` and normalized school as
parameters and quantifies over them.  The rendered ID card
(`generate_student_id_card`, total -- see the C3 section) only contributes
request payloads, which the response environment abstracts over. -/

/-- Normalized school data (`school_normalized` in `verify`). -/
structure School where
  id : String
  name : String
  city : String
  state : String
  idExtended : String
deriving DecidableEq, Repr

/-- The `student_info` dict of a successful `VerificationResult`. -/
structure StudentInfo where
  name : String
  email : String
  birth_date : String
  school : String
  school_id : String
  location : String
deriving DecidableEq, Repr

/-- The `VerificationResult` dataclass of `sheerid_verifier.py`. -/
structure VerificationResult where
  success : Bool
  pending : Bool := false
  message : String := ""
  verification_id : String := ""
  redirect_url : Option String := none
  student_info : Option StudentInfo := none
  current_step : Option String := none
deriving DecidableEq, Repr

/-- The remote stages a `verify` run can reach, in source order:
`POST step/collectStudentPersonalInfo`, `DELETE step/sso`,
`POST step/docUpload`, the S3 `PUT`, `POST step/completeDocUpload`. -/
inductive Stage where
  | collectInfo
  | ssoDelete
  | docUploadReq
  | s3Put
  | completeDoc
deriving DecidableEq, Repr

/-- Network environment of one `verify` run: the attempt stream of each
`_make_request` call and the boolean outcome of `_upload_to_s3` (which
catches its own exceptions and returns `False`). -/
structure VerifyEnv where
  step1 : Nat → AttemptOutcome
  sso : Nat → AttemptOutcome
  docUpload : Nat → AttemptOutcome
  s3ok : Bool
  complete : Nat → AttemptOutcome

/-- Models Python `int(s)` on the organization id string: an optional
sign followed by decimal digits, else `ValueError` (`none`). -/
def pyInt? (s : String) : Option Int :=
  match s.data with
  | '-' :: rest => (decStrToNat? (String.mk rest)).map fun n => -(n : Int)
  | '+' :: rest => (decStrToNat? (String.mk rest)).map fun n => (n : Int)
  | _ => (decStrToNat? s).map fun n => (n : Int)

/-- Models `step1_data.get('errorIds', step1_data.get('error', 'Unknown error'))`. -/
def respErrorMsg (d : RespData) : String :=
  d.errorIds.getD (d.errorText.getD "Unknown error")

/-- Steps 3 and 4 of `verify`: `docUpload`, the S3 `PUT`, then
`completeDocUpload`. -/
def verifyDocPhase (env : VerifyEnv) (vid first last email birth : String)
    (school : School) : Except String VerificationResult × List Stage :=
  match makeRequest env.docUpload with
  | (.error m, _) => (.error m, [.docUploadReq])
  | (.ok (d3, s3), _) =>
    if s3 ≠ 200 ∨ d3.documents = [] then
      (.error "Failed to get S3 upload URLs", [.docUploadReq])
    else if env.s3ok = false then
      (.error "S3 document upload failed", [.docUploadReq, .s3Put])
    else
      match makeRequest env.complete with
      | (.error m, _) => (.error m, [.docUploadReq, .s3Put, .completeDoc])
      | (.ok (d4, _), _) =>
        (.ok { success := true, pending := true,
               message := "✅ Verification submitted successfully! Results in 24-48 hours.",
               verification_id := vid,
               redirect_url := d4.redirectUrl,
               current_step := d4.currentStep,
               student_info := some ⟨first ++ " " ++ last, email, birth,
                 school.name, school.id, school.city ++ ", " ++ school.state⟩ },
          [.docUploadReq, .s3Put, .completeDoc])

/-- Step 2 of `verify`: `DELETE step/sso` iff the current step is `sso`
(the updated `current_step` is not read afterwards in the source). -/
def verifySsoPhase (env : VerifyEnv) (vid first last email birth : String)
    (school : School) (cs : Option String) :
    Except String VerificationResult × List Stage :=
  if cs = some "sso" then
    match makeRequest env.sso with
    | (.error m, _) => (.error m, [.ssoDelete])
    | (.ok _, _) =>
      let r := verifyDocPhase env vid first last email birth school
      (r.1, .ssoDelete :: r.2)
  else verifyDocPhase env vid first last email birth school

/-- The body of the `try` block of `verify`: `int(school_normalized['id'])`
can raise before any network call; then the four stages in order.  The
`.error` component is the message of the raised exception; the second
component records the stages reached. -/
def verifyBody (env : VerifyEnv) (vid first last email birth : String)
    (school : School) : Except String VerificationResult × List Stage :=
  match pyInt? school.id with
  | none => (.error ("invalid literal for int() with base 10: " ++ school.id), [])
  | some _ =>
    match makeRequest env.step1 with
    | (.error m, _) => (.error m, [.collectInfo])
    | (.ok (d1, s1), _) =>
      if s1 ≠ 200 then
        (.error ("Step 1 failed (HTTP " ++ pyStrOfNat s1 ++ "): " ++ respErrorMsg d1),
          [.collectInfo])
      else if d1.currentStep = some "error" then
        (.error ("Step 1 validation failed: " ++ d1.errorIds.getD "Unknown"),
          [.collectInfo])
      else
        let r := verifySsoPhase env vid first last email birth school d1.currentStep
        (r.1, .collectInfo :: r.2)

/-- Embedding of `SheerIDVerifier.verify`: the whole body runs inside
`try`, and the `except Exception` handler turns any raise into a failure
`VerificationResult`; `verify` is total (no exception escapes). -/
def verify (env : VerifyEnv) (vid first last email birth : String)
    (school : School) : VerificationResult × List Stage :=
  match verifyBody env vid first last email birth school with
  | (.ok r, tr) => (r, tr)
  | (.error e, tr) =>
    ({ success := false, message := "❌ Verification failed: " ++ e,
       verification_id := vid }, tr)

/-- C1: if the first required stage returns a non-2xx status, the run
fails and the trace stops at `collectInfo`: no SSO deletion, no docUpload
request, no S3 upload, no completeDocUpload. -/
theorem verify_step1_non2xx_aborts (env : VerifyEnv)
    (vid first last email birth : String) (school : School)
    (d1 : RespData) (s1 : Nat)
    (hid : (pyInt? school.id).isSome = true)
    (h1 : (makeRequest env.step1).1 = .ok (d1, s1))
    (hnon : ¬(200 ≤ s1 ∧ s1 ≤ 299)) :
    (verify env vid first last email birth school).1.success = false ∧
    (verify env vid first last email birth school).2 = [Stage.collectInfo] := by
  have hs200 : s1 ≠ 200 := by omega
  rcases hpi : pyInt? school.id with _ | i
  · rw [hpi] at hid; exact absurd hid (by simp)
  · have hpair : makeRequest env.step1 =
        (.ok (d1, s1), (makeRequest env.step1).2) := Prod.ext h1 rfl
    rw [verify, verifyBody, hpi, hpair]
    simp [hs200]

/-- C7: whenever the workflow body raises, `verify` returns the single
structured failure result: success flag `False`, a message naming the
cause, the originating verification id, and nothing else set. -/
theorem verify_error_propagation (env : VerifyEnv)
    (vid first last email birth : String) (school : School)
    (e : String) (tr : List Stage)
    (hbody : verifyBody env vid first last email birth school = (.error e, tr)) :
    verify env vid first last email birth school =
      ({ success := false, pending := false,
         message := "❌ Verification failed: " ++ e,
         verification_id := vid, redirect_url := none,
         student_info := none, current_step := none }, tr) := by
  rw [verify, hbody]

end Umum

namespace Umum

theorem makeRequest_first_resp (attempts : Nat → AttemptOutcome)
    (d : RespData) (s : Nat) (h : attempts 0 = .resp d s) (hs : s ≠ 429) :
    makeRequest attempts = (.ok (d, s), []) := by
  rw [makeRequest, RETRY_ATTEMPTS, makeRequestFrom, dif_pos (by omega), h]
  simp [hs]

theorem makeRequest_all_timeout :
    makeRequest (fun _ => AttemptOutcome.timeout) =
      (.error ("Request failed after " ++ pyStrOfNat 3 ++ " attempts"), [1, 2]) := by
  have e0 := makeRequestFrom_transient_step (fun _ => .timeout) 0 (by omega) trivial
  have e1 := makeRequestFrom_transient_step (fun _ => .timeout) 1 (by omega) trivial
  have e2 : makeRequestFrom (fun _ => AttemptOutcome.timeout) 3 2 =
      (.error ("Request failed after " ++ pyStrOfNat 3 ++ " attempts"), []) := by
    rw [makeRequestFrom, dif_pos (by omega)]
    simp only [if_neg (show ¬(2 < 3 - 1) by omega)]
    rw [show (2 : Nat) + 1 = 3 from rfl, makeRequestFrom_out]
  rw [makeRequest, RETRY_ATTEMPTS, e0, e1, e2]
  rfl

/-- Concrete instance of the C1 theorem: an HTTP 400 on the first stage. -/
theorem verify_step1_non2xx_aborts_witness :
    (verify ⟨fun _ => AttemptOutcome.resp ⟨none, none, none, [], none⟩ 400,
        fun _ => AttemptOutcome.timeout, fun _ => AttemptOutcome.timeout, false,
        fun _ => AttemptOutcome.timeout⟩
      "0123456789abcdef0123456789abcdef" "John" "Smith" "j@x.edu" "2004-01-01"
      ⟨"243744", "Stanford University", "Stanford", "CA", "243744"⟩).1.success
      = false ∧
    (verify ⟨fun _ => AttemptOutcome.resp ⟨none, none, none, [], none⟩ 400,
        fun _ => AttemptOutcome.timeout, fun _ => AttemptOutcome.timeout, false,
        fun _ => AttemptOutcome.timeout⟩
      "0123456789abcdef0123456789abcdef" "John" "Smith" "j@x.edu" "2004-01-01"
      ⟨"243744", "Stanford University", "Stanford", "CA", "243744"⟩).2
      = [Stage.collectInfo] := by
  apply verify_step1_non2xx_aborts _ _ _ _ _ _ _
    (⟨none, none, none, [], none⟩ : RespData) 400
  · decide
  · exact congrArg Prod.fst
      (makeRequest_first_resp _ ⟨none, none, none, [], none⟩ 400 rfl (by decide))
  · decide

/-- Concrete instance of the C7 theorem: all step-1 attempts time out, the
body raises, and `verify` returns the structured failure result. -/
theorem verify_error_propagation_witness :
    verifyBody ⟨fun _ => AttemptOutcome.timeout, fun _ => AttemptOutcome.timeout,
        fun _ => AttemptOutcome.timeout, false, fun _ => AttemptOutcome.timeout⟩
      "0123456789abcdef0123456789abcdef" "John" "Smith" "j@x.edu" "2004-01-01"
      ⟨"243744", "Stanford University", "Stanford", "CA", "243744"⟩ =
      (.error ("Request failed after " ++ pyStrOfNat 3 ++ " attempts"),
        [Stage.collectInfo]) ∧
    verify ⟨fun _ => AttemptOutcome.timeout, fun _ => AttemptOutcome.timeout,
        fun _ => AttemptOutcome.timeout, false, fun _ => AttemptOutcome.timeout⟩
      "0123456789abcdef0123456789abcdef" "John" "Smith" "j@x.edu" "2004-01-01"
      ⟨"243744", "Stanford University", "Stanford", "CA", "243744"⟩ =
      ({ success := false, pending := false,
         message := "❌ Verification failed: " ++
           ("Request failed after " ++ pyStrOfNat 3 ++ " attempts"),
         verification_id := "0123456789abcdef0123456789abcdef",
         redirect_url := none, student_info := none, current_step := none },
        [Stage.collectInfo]) := by
  have hpi : pyInt? "243744" = some 243744 := by decide
  have hbody : verifyBody ⟨fun _ => AttemptOutcome.timeout,
        fun _ => AttemptOutcome.timeout, fun _ => AttemptOutcome.timeout, false,
        fun _ => AttemptOutcome.timeout⟩
      "0123456789abcdef0123456789abcdef" "John" "Smith" "j@x.edu" "2004-01-01"
      ⟨"243744", "Stanford University", "Stanford", "CA", "243744"⟩ =
      (.error ("Request failed after " ++ pyStrOfNat 3 ++ " attempts"),
        [Stage.collectInfo]) := by
    rw [verifyBody]
    simp only [hpi, makeRequest_all_timeout]
  exact ⟨hbody, verify_error_propagation _ _ _ _ _ _ _ _ _ hbody⟩

end Umum

namespace Umum

/-! ## Embedding of `config.py` organization search and `bot.py`
`search_universities` -/

/-- Python `str.upper()` for one character (ASCII model). -/
def pyCharUpper (c : Char) : Char :=
  if 'a' ≤ c ∧ c ≤ 'z' then Char.ofNat (c.toNat - 32) else c

/-- Python `str.upper()`. -/
def pyUpper (s : String) : String := String.mk (s.data.map pyCharUpper)

/-- A raw organization record from the OrgSearch API, with the fields the
code reads (JSON organization ids are numbers). -/
structure Org where
  id : Option Int
  name : Option String
  city : Option String
  state : Option String
  idExtended : Option String
  type : Option String
deriving DecidableEq, Repr

/-- Embedding of `normalize_school_data` (`config.py`):
`str(school_data.get('id', ''))` and friends. -/
def normalize_school_data (org : Org) : School :=
  { id := match org.id with | some i => pyStrOfInt i | none => ""
    name := org.name.getD "Unknown University"
    city := org.city.getD ""
    state := org.state.getD "US"
    idExtended := org.idExtended.getD
      (match org.id with | some i => pyStrOfInt i | none => "") }

/-- The filter loop of `search_university_in_sheerid`: `seen` collects the
raw ids (`seen.add` runs before the type filter); only truthy unseen ids
whose upper-cased type is `UNIVERSITY`, `COLLEGE` or `FOUR_YEAR` are
appended, normalized. -/
def sheeridFilterAux : List Org → List Int → List School
  | [], _ => []
  | org :: rest, seen =>
    match org.id with
    | some i =>
      if i ≠ 0 ∧ i ∉ seen then
        if pyUpper (org.type.getD "") ∈
            (["UNIVERSITY", "COLLEGE", "FOUR_YEAR"] : List String) then
          normalize_school_data org :: sheeridFilterAux rest (i :: seen)
        else sheeridFilterAux rest (i :: seen)
      else sheeridFilterAux rest seen
    | none => sheeridFilterAux rest seen

/-- Outcome of one `GET` to the OrgSearch API: a decoded JSON list with
its HTTP status, a decoded non-list JSON body with its status, or a raised
exception. -/
inductive OrgSearchOutcome where
  | listResp (orgs : List Org) (status : Nat)
  | nonList (status : Nat)
  | exn
deriving Repr

/-- Embedding of `search_university_in_sheerid` (`config.py`) with the
module-level `SHEERID_CACHE` passed as explicit state: cache hit returns
the cached list; a non-200 status, a non-list body or an exception return
`[]` without caching; otherwise the filtered, 15-capped list is returned
and cached. -/
def search_university_in_sheerid (cache : List (String × List School))
    (query utype : String) (resp : OrgSearchOutcome) :
    List School × List (String × List School) :=
  let cache_key := pyLower query ++ "|" ++ utype
  match cache.lookup cache_key with
  | some cached => (cached, cache)
  | none =>
    match resp with
    | .exn => ([], cache)
    | .nonList _ => ([], cache)
    | .listResp orgs status =>
      if status ≠ 200 then ([], cache)
      else
        let universities := (sheeridFilterAux orgs []).take 15
        (universities, (cache_key, universities) :: cache)

/-- The per-type loop body of `search_universities` (`bot.py`): the
decoded list is kept only for a 200 status with a JSON list body;
exceptions and other statuses contribute nothing. -/
def orgSearchResults : OrgSearchOutcome → List Org
  | .listResp orgs status => if status = 200 then orgs else []
  | .nonList _ => []
  | .exn => []

/-- The dedup loop of `search_universities`: keep the first record for
each truthy unseen raw id. -/
def botDedupAux : List Org → List Int → List Org
  | [], _ => []
  | u :: rest, seen =>
    match u.id with
    | some i =>
      if i ≠ 0 ∧ i ∉ seen then u :: botDedupAux rest (i :: seen)
      else botDedupAux rest seen
    | none => botDedupAux rest seen

/-- Embedding of `search_universities` (`bot.py`): the four typed
searches (`UNIVERSITY`, `COLLEGE`, `FOUR_YEAR`, `TWO_YEAR`) are
concatenated, de-duplicated by id, and capped at 15. -/
def search_universities (r1 r2 r3 r4 : OrgSearchOutcome) : List Org :=
  let all_universities := orgSearchResults r1 ++ orgSearchResults r2 ++
    orgSearchResults r3 ++ orgSearchResults r4
  (botDedupAux all_universities []).take 15

theorem sheeridFilterAux_spec : ∀ (l : List Org) (seen : List Int),
    ((sheeridFilterAux l seen).map School.id).Nodup ∧
    ∀ s ∈ sheeridFilterAux l seen, ∃ i : Int, i ∉ seen ∧ s.id = pyStrOfInt i := by
  intro l
  induction l with
  | nil => intro seen; exact ⟨List.nodup_nil, by simp [sheeridFilterAux]⟩
  | cons org rest ih =>
    intro seen
    rcases hid : org.id with _ | i
    · simp only [sheeridFilterAux, hid]
      exact ih seen
    · simp only [sheeridFilterAux, hid]
      by_cases hfresh : i ≠ 0 ∧ i ∉ seen
      · rw [if_pos hfresh]
        by_cases htype : pyUpper (org.type.getD "") ∈
            (["UNIVERSITY", "COLLEGE", "FOUR_YEAR"] : List String)
        · rw [if_pos htype]
          rcases ih (i :: seen) with ⟨hnodup, hmem⟩
          constructor
          · rw [List.map_cons, List.nodup_cons]
            refine ⟨?_, hnodup⟩
            intro hcon
            rcases List.mem_map.mp hcon with ⟨s, hs, hsid⟩
            rcases hmem s hs with ⟨j, hj, hjid⟩
            have : (normalize_school_data org).id = pyStrOfInt i := by
              rw [normalize_school_data, hid]
            rw [this, hjid] at hsid
            have := pyStrOfInt_injective hsid
            exact hj (this ▸ List.mem_cons_self i seen)
          · intro s hs
            rcases List.mem_cons.mp hs with h1 | h2
            · refine ⟨i, hfresh.2, ?_⟩
              rw [h1, normalize_school_data, hid]
            · rcases hmem s h2 with ⟨j, hj, hjid⟩
              exact ⟨j, fun hc => hj (List.mem_cons_of_mem i hc), hjid⟩
        · rw [if_neg htype]
          rcases ih (i :: seen) with ⟨hnodup, hmem⟩
          refine ⟨hnodup, ?_⟩
          intro s hs
          rcases hmem s hs with ⟨j, hj, hjid⟩
          exact ⟨j, fun hc => hj (List.mem_cons_of_mem i hc), hjid⟩
      · rw [if_neg hfresh]
        exact ih seen

theorem botDedupAux_spec : ∀ (l : List Org) (seen : List Int),
    ((botDedupAux l seen).map Org.id).Nodup ∧
    ∀ u ∈ botDedupAux l seen, ∃ i : Int, i ∉ seen ∧ u.id = some i := by
  intro l
  induction l with
  | nil => intro seen; exact ⟨List.nodup_nil, by simp [botDedupAux]⟩
  | cons org rest ih =>
    intro seen
    rcases hid : org.id with _ | i
    · simp only [botDedupAux, hid]
      exact ih seen
    · simp only [botDedupAux, hid]
      by_cases hfresh : i ≠ 0 ∧ i ∉ seen
      · rw [if_pos hfresh]
        rcases ih (i :: seen) with ⟨hnodup, hmem⟩
        constructor
        · rw [List.map_cons, List.nodup_cons]
          refine ⟨?_, hnodup⟩
          intro hcon
          rcases List.mem_map.mp hcon with ⟨u, hu, huid⟩
          rcases hmem u hu with ⟨j, hj, hjid⟩
          rw [hjid, hid] at huid
          have : j = i := by injection huid
          exact hj (this ▸ List.mem_cons_self i seen)
        · intro u hu
          rcases List.mem_cons.mp hu with h1 | h2
          · exact ⟨i, hfresh.2, h1 ▸ hid⟩
          · rcases hmem u h2 with ⟨j, hj, hjid⟩
            exact ⟨j, fun hc => hj (List.mem_cons_of_mem i hc), hjid⟩
      · rw [if_neg hfresh]
        exact ih seen

theorem lookup_mem_snd {β : Type} : ∀ (l : List (String × β)) (k : String) (v : β),
    l.lookup k = some v → ∃ p ∈ l, p.2 = v := by
  intro l
  induction l with
  | nil => intro k v h; exact absurd h (by simp)
  | cons p rest ih =>
    intro k v h
    rw [List.lookup] at h
    cases hbeq : k == p.1 with
    | true =>
      rw [hbeq] at h
      simp at h
      exact ⟨p, List.mem_cons_self p rest, by simp [h]⟩
    | false =>
      rw [hbeq] at h
      simp at h
      rcases ih k v h with ⟨q, hq, hqv⟩
      exact ⟨q, List.mem_cons_of_mem p hq, hqv⟩

/-- C6: both organization lookups return lists with pairwise-distinct
identifiers of length at most 15.  For the cached config-side lookup this
holds under the invariant that every cached list already satisfies it, and
the invariant is self-sustaining: the updated cache satisfies it again
(only capped, de-duplicated lists are ever inserted). -/
theorem org_search_dedup_cap :
    (∀ (cache : List (String × List School)) (query utype : String)
        (resp : OrgSearchOutcome),
      (∀ p ∈ cache, (p.2.map School.id).Nodup ∧ p.2.length ≤ 15) →
      (((search_university_in_sheerid cache query utype resp).1.map School.id).Nodup ∧
        (search_university_in_sheerid cache query utype resp).1.length ≤ 15) ∧
      (∀ p ∈ (search_university_in_sheerid cache query utype resp).2,
        (p.2.map School.id).Nodup ∧ p.2.length ≤ 15)) ∧
    (∀ r1 r2 r3 r4 : OrgSearchOutcome,
      ((search_universities r1 r2 r3 r4).map Org.id).Nodup ∧
        (search_universities r1 r2 r3 r4).length ≤ 15) := by
  constructor
  · intro cache query utype resp hcache
    rcases hl : List.lookup (pyLower query ++ "|" ++ utype) cache with _ | cached
    · rcases resp with ⟨orgs, status⟩ | status | _
      · by_cases hs : status ≠ 200
        · simp only [search_university_in_sheerid.eq_def, hl, if_pos hs]
          exact ⟨⟨List.nodup_nil, by simp⟩, hcache⟩
        · simp only [search_university_in_sheerid.eq_def, hl, if_neg hs]
          have hspec := (sheeridFilterAux_spec orgs []).1
          have hP : (((sheeridFilterAux orgs []).take 15).map School.id).Nodup ∧
              ((sheeridFilterAux orgs []).take 15).length ≤ 15 := by
            constructor
            · rw [List.map_take]
              exact List.Nodup.sublist (List.take_sublist _ _) hspec
            · exact List.length_take_le _ _
          refine ⟨hP, ?_⟩
          intro p hp
          rcases List.mem_cons.mp hp with h1 | h2
          · rw [h1]; exact hP
          · exact hcache p h2
      · simp only [search_university_in_sheerid.eq_def, hl]
        exact ⟨⟨List.nodup_nil, by simp⟩, hcache⟩
      · simp only [search_university_in_sheerid.eq_def, hl]
        exact ⟨⟨List.nodup_nil, by simp⟩, hcache⟩
    · simp only [search_university_in_sheerid.eq_def, hl]
      rcases lookup_mem_snd cache _ cached hl with ⟨p, hp, hpv⟩
      have hinv := hcache p hp
      rw [hpv] at hinv
      exact ⟨hinv, hcache⟩
  · intro r1 r2 r3 r4
    rw [search_universities]
    have hspec := (botDedupAux_spec (orgSearchResults r1 ++ orgSearchResults r2 ++
      orgSearchResults r3 ++ orgSearchResults r4) []).1
    constructor
    · rw [List.map_take]
      exact List.Nodup.sublist (List.take_sublist _ _) hspec
    · exact List.length_take_le _ _

/-- Concrete instance of the C6 theorem: an empty cache with a response
containing a duplicated id, and a bot search duplicating one record. -/
theorem org_search_dedup_cap_witness :
    (((search_university_in_sheerid [] "stanford" "UNIVERSITY"
        (.listResp [⟨some 243744, some "Stanford University", some "Stanford",
          some "CA", some "243744", some "UNIVERSITY"⟩,
          ⟨some 243744, some "Stanford University", some "Stanford",
          some "CA", some "243744", some "UNIVERSITY"⟩] 200)).1.map
        School.id).Nodup ∧
      (search_university_in_sheerid [] "stanford" "UNIVERSITY"
        (.listResp [⟨some 243744, some "Stanford University", some "Stanford",
          some "CA", some "243744", some "UNIVERSITY"⟩,
          ⟨some 243744, some "Stanford University", some "Stanford",
          some "CA", some "243744", some "UNIVERSITY"⟩] 200)).1.length ≤ 15) ∧
    ((search_universities
        (.listResp [⟨some 1, some "A", none, none, none, some "UNIVERSITY"⟩] 200)
        (.listResp [⟨some 1, some "A", none, none, none, some "UNIVERSITY"⟩] 200)
        .exn .exn).map Org.id).Nodup ∧
      (search_universities
        (.listResp [⟨some 1, some "A", none, none, none, some "UNIVERSITY"⟩] 200)
        (.listResp [⟨some 1, some "A", none, none, none, some "UNIVERSITY"⟩] 200)
        .exn .exn).length ≤ 15 := by
  refine ⟨(org_search_dedup_cap.1 [] "stanford" "UNIVERSITY" _ (by simp)).1, ?_, ?_⟩
  · exact (org_search_dedup_cap.2 _ _ .exn .exn).1
  · exact (org_search_dedup_cap.2 _ _ .exn .exn).2

/-! ## Embedding of `process_verification` (`bot.py`) -/

/-- The per-user session state read by `process_verification`
(`user_data.get(user_id, {})`); a missing key is `none`.  `school_id`
holds the raw organization id (`uni.get("id")`, a JSON number). -/
structure BotState where
  verification_id : Option String
  first_name : Option String
  last_name : Option String
  full_name : Option String
  email : Option String
  birth_date : Option String
  school_id : Option Int
  school_name : Option String
  school_type : Option String
deriving DecidableEq, Repr

/-- Outcome of the awaited verifier call in `process_verification`: a
result object with its `success` flag and `error_message`, or a raised
exception. -/
inductive SubmitOutcome where
  | result (success : Bool) (error_message : Option String)
  | exn (msg : String)
deriving DecidableEq, Repr

/-- The externally visible actions of `process_verification`, in order:
Telegram messages, the network call to the verification API, and the
admin log call. -/
inductive BotAction where
  | sendMessage (text : String)
  | submitCall
  | logResult
deriving DecidableEq, Repr

/-- Python `if not all([verification_id, first_name, last_name, email,
birth_date, school_id])`. -/
def sessionComplete (st : BotState) : Bool :=
  pyTruthyStr st.verification_id && pyTruthyStr st.first_name &&
    pyTruthyStr st.last_name && pyTruthyStr st.email &&
    pyTruthyStr st.birth_date && pyTruthyInt st.school_id

/-- Embedding of `process_verification` as its trace of actions: on
incomplete state it reports and returns before any network call;
otherwise it announces, performs the verifier call, and reports the
outcome (with an admin log in every completed branch). -/
def process_verification (st : BotState) (outcome : SubmitOutcome) :
    List BotAction :=
  if sessionComplete st = false then
    [.sendMessage "❌ Data tidak lengkap di state. Silakan /start ulang."]
  else
    .sendMessage "⏳ Mengirim data verifikasi ke SheerID...\nMohon tunggu sebentar." ::
    .submitCall ::
    match outcome with
    | .result true _ =>
      [.sendMessage "✅ *Verifikasi berhasil!*\n\nCek kembali browser/tab SheerID kamu untuk langkah selanjutnya.",
       .logResult]
    | .result false em =>
      [.sendMessage ("❌ *Verifikasi gagal*\n\nReason: `" ++ em.getD "None" ++ "`"),
       .logResult]
    | .exn m =>
      [.sendMessage ("❌ Terjadi error saat verifikasi: `" ++ m ++ "`"),
       .logResult]

/-- C8: if any required field of the session state is missing,
`process_verification` only reports the failure and returns -- in
particular it never reaches the verifier network call. -/
theorem process_verification_incomplete_aborts (st : BotState)
    (o : SubmitOutcome)
    (h : st.verification_id = none ∨ st.first_name = none ∨
      st.last_name = none ∨ st.email = none ∨ st.birth_date = none ∨
      st.school_id = none) :
    process_verification st o =
      [BotAction.sendMessage "❌ Data tidak lengkap di state. Silakan /start ulang."] ∧
    BotAction.submitCall ∉ process_verification st o := by
  have hguard : sessionComplete st = false := by
    rcases h with h | h | h | h | h | h <;>
      simp [sessionComplete, h, pyTruthyStr, pyTruthyInt]
  rw [process_verification.eq_def, if_pos hguard]
  exact ⟨rfl, by decide⟩

/-- Concrete instance of the C8 theorem: a state missing only the
verification id. -/
theorem process_verification_incomplete_aborts_witness :
    process_verification
        ⟨none, some "John", some "Smith", some "John Smith", some "j@x.edu",
          some "2004-01-01", some 243744, some "Stanford University",
          some "UNIVERSITY"⟩ (.result true none) =
      [BotAction.sendMessage "❌ Data tidak lengkap di state. Silakan /start ulang."] ∧
    BotAction.submitCall ∉ process_verification
        ⟨none, some "John", some "Smith", some "John Smith", some "j@x.edu",
          some "2004-01-01", some 243744, some "Stanford University",
          some "UNIVERSITY"⟩ (.result true none) :=
  process_verification_incomplete_aborts _ _ (Or.inl rfl)

end Umum
